import Mathlib

/-!
Verification development for the Swarm csv uploader (src/swarm/app.py).

The module reads a csv timeserie, transforms it into unified json packets
(optional padding shift, optional fake electrification, packaging) and posts
each packet to a web data collector.

Shallow embedding conventions:
* a Python dict with string keys is an association list `List (String × Value)`
  in insertion order; the merge idiom of two dict displays is `dictMerge`,
  which keeps the first dict key order, overrides values from the second
  dict, and appends the second dict fresh keys in order;
* a naive `datetime.datetime` is the integer count of seconds of its civil
  reading (proleptic Gregorian calendar, day = 86400 s), so
  `datetime.timedelta(minutes=m)` addition is addition of `60 * m` seconds;
* Python floats are modelled as rationals (no claim here depends on
  rounding);
* raised exceptions are `Except PyErr`; a for-loop that appends one derived
  element per iteration and lets exceptions escape is `exceptMap`;
* true stdlib calls that are external to this repository are parameters:
  `strptime` (None encodes the ValueError raise), `pyFloat` (the `float`
  builtin, None encodes the ValueError raise), `dumps` (`json.dumps`), and
  the network (`net`, None encodes a raised RequestException).
-/

/-- Python exceptions raised by the embedded code. `valueErrorUnpack` and
`valueErrorTimestamp` are both ValueError at runtime, distinguished by the
raise site (tuple unpacking of a row, and `strptime`). `invalidRef` is an
artifact of the store-passing model only: a dangling address, unreachable
from well-formed states. -/
inductive PyErr where
  | indexError
  | keyError
  | typeError
  | valueErrorUnpack
  | valueErrorTimestamp
  | invalidRef
  deriving DecidableEq, Repr

/-- Values stored in a Python dict as they occur in this program: floats,
None, strings, naive datetimes, and (after the padding step stores a whole
record under a single key) nested dicts. -/
inductive Value where
  | num (q : ℚ) : Value
  | null : Value
  | str (s : String) : Value
  | time (t : ℤ) : Value
  | vdict (fields : List (String × Value)) : Value

/-- A record / unified packet: a Python dict with string keys, kept in
insertion order. -/
abbrev Record := List (String × Value)

/-- Dict subscript `d[k]`: the value at the first occurrence of key `k`. -/
def dictGet {α : Type} (k : String) : List (String × α) → Option α
  | [] => none
  | (k0, v) :: rest => if k0 = k then some v else dictGet k rest

/-- The Python merge idiom of two dict displays: keys of `a` in order with
values overridden by `b` where present, then the keys of `b` absent from `a`,
in order. -/
def dictMerge {α : Type} (a b : List (String × α)) : List (String × α) :=
  a.map (fun kv => (kv.1, (dictGet kv.1 b).getD kv.2)) ++
    b.filter (fun kv => (dictGet kv.1 a).isNone)

/-- A Python for-loop over a list that appends one derived element per
iteration and propagates the first raised exception. -/
def exceptMap {α β : Type} (f : α → Except PyErr β) : List α → Except PyErr (List β)
  | [] => .ok []
  | x :: xs =>
    match f x with
    | .error e => .error e
    | .ok y =>
      match exceptMap f xs with
      | .error e => .error e
      | .ok ys => .ok (y :: ys)

/-- The 21 fixed electrical field names (module constant ELECTRICITY_KEYS). -/
def ELECTRICITY_KEYS : List String :=
  ["aP_1", "aP_2", "aP_3", "rP_1", "rP_2", "rP_3", "apP_1", "apP_2", "apP_3",
   "v_1", "v_2", "v_3", "c_1", "c_2", "c_3", "pC_1", "pC_2", "pC_3",
   "v_12", "v_13", "v_23"]

/-- Conversion of days since 1970-01-01 to a civil date (year, month, day) of
the proleptic Gregorian calendar; used to give meaning to `strftime`. -/
def civilFromDays (z : ℤ) : ℤ × ℕ × ℕ :=
  let zs := z + 719468
  let era := zs.fdiv 146097
  let doe := (zs - era * 146097).toNat
  let yoe := (doe - doe / 1460 + doe / 36524 - doe / 146096) / 365
  let y0 := (yoe : ℤ) + era * 400
  let doy := doe - (365 * yoe + yoe / 4 - yoe / 100)
  let mp := (5 * doy + 2) / 153
  let d := doy - (153 * mp + 2) / 5 + 1
  let m := if mp < 10 then mp + 3 else mp - 9
  (if m ≤ 2 then y0 + 1 else y0, m, d)

/-- Civil reading (year, month, day, hour, minute, second) of a naive
datetime given as seconds. -/
def secondsToCivil (t : ℤ) : ℤ × ℕ × ℕ × ℕ × ℕ × ℕ :=
  let days := t.fdiv 86400
  let sod := (t.emod 86400).toNat
  let c := civilFromDays days
  (c.1, c.2.1, c.2.2, sod / 3600, sod % 3600 / 60, sod % 60)

/-- Zero-pad a number to two digits. -/
def pad2 (n : ℕ) : String :=
  if n < 10 then "0" ++ toString n else toString n

/-- Zero-pad a year to four digits. -/
def pad4 (n : ℤ) : String :=
  let s := toString n
  if 0 ≤ n ∧ s.length < 4 then
    String.mk (List.replicate (4 - s.length) '0') ++ s
  else s

/-- Rendering of the directive part of the packet format string, that is
`strftime` applied to the format text up to the seconds directive:
year-month-dayThour:minute:second of the civil reading, each zero padded. -/
def fmtYmdTHMS (t : ℤ) : String :=
  let c := secondsToCivil t
  pad4 c.1 ++ "-" ++ pad2 c.2.1 ++ "-" ++ pad2 c.2.2.1 ++ "T" ++
    pad2 c.2.2.2.1 ++ ":" ++ pad2 c.2.2.2.2.1 ++ ":" ++ pad2 c.2.2.2.2.2

/-- The call `entry['tsISO8601'].strftime('%Y-%m-%dT%H:%M:%S.000+00:00')`
from `_build_unified_packets`: the directives render the civil fields of the
naive datetime and every remaining character of the format string is copied
literally, so the fixed text `.000+00:00` is appended verbatim and no
timezone conversion happens. -/
def strftime_unified (t : ℤ) : String :=
  fmtYmdTHMS t ++ ".000+00:00"

/-- The function `safe_string_to_float`: calls the `float` builtin (the
parameter `pyFloat`, returning none where `float` raises ValueError) and
returns its result, None on failure. -/
def safe_string_to_float (pyFloat : String → Option ℚ) (value : String) : Option ℚ :=
  pyFloat value

/-- Embeds an optional float into a dict value (a float or None). -/
def optFloatToValue : Option ℚ → Value
  | some q => .num q
  | none => .null

/-- One iteration of the `parse_single_value_csv` loop: the row unpacks as
`timestamp, value` (ValueError unless exactly two columns), the timestamp
goes through `strptime` (ValueError when it does not match the format), the
value through `safe_string_to_float`. -/
def parseSingleValueRow (strptime : String → Option ℤ)
    (pyFloat : String → Option ℚ) (row : List String) : Except PyErr Record :=
  match row with
  | [timestamp, value] =>
    match strptime timestamp with
    | none => .error .valueErrorTimestamp
    | some dt =>
      .ok [("tsISO8601", Value.time dt),
           ("value", optFloatToValue (safe_string_to_float pyFloat value))]
  | _ => .error .valueErrorUnpack

/-- The function `parse_single_value_csv` on the list of csv rows of the
file. -/
def parse_single_value_csv (strptime : String → Option ℤ)
    (pyFloat : String → Option ℚ) (rows : List (List String)) :
    Except PyErr (List Record) :=
  exceptMap (parseSingleValueRow strptime pyFloat) rows

/-- One iteration of the `parse_electricity_csv` loop: the row unpacks as
`timestamp, *values` (ValueError only on an empty row), every value goes
through `safe_string_to_float`, the timestamp through `strptime`, and the
record is `dict(zip(['tsISO8601', *ELECTRICITY_KEYS],
[packet_datetime, *values]))`, where `zip` truncates to the shorter list. -/
def parseElectricityRow (strptime : String → Option ℤ)
    (pyFloat : String → Option ℚ) (row : List String) : Except PyErr Record :=
  match row with
  | [] => .error .valueErrorUnpack
  | timestamp :: values =>
    match strptime timestamp with
    | none => .error .valueErrorTimestamp
    | some dt =>
      .ok (List.zip ("tsISO8601" :: ELECTRICITY_KEYS)
        (Value.time dt :: values.map (fun v => optFloatToValue (safe_string_to_float pyFloat v))))

/-- The function `parse_electricity_csv` on the list of csv rows of the
file. -/
def parse_electricity_csv (strptime : String → Option ℤ)
    (pyFloat : String → Option ℚ) (rows : List (List String)) :
    Except PyErr (List Record) :=
  exceptMap (parseElectricityRow strptime pyFloat) rows

/-- One iteration of the shifting loop of `_prepend_padding_value`:
`{**entry, **{'tsISO8601': entry['tsISO8601'] + timedelta(minutes=minutes)}}`.
A missing key raises KeyError; a non-datetime value raises TypeError at the
timedelta addition. -/
def shiftEntry (minutes : ℤ) (entry : Record) : Except PyErr Record :=
  match dictGet "tsISO8601" entry with
  | none => .error .keyError
  | some (Value.time t) =>
    .ok (dictMerge entry [("tsISO8601", Value.time (t + 60 * minutes))])
  | some _ => .error .typeError

/-- The static method `_prepend_padding_value`: builds
`{**timeserie[0], **{'value': timeserie[1]}}` — note the source stores the
whole second record under the key `value`, not its `value` field — then
appends every entry with its timestamp shifted by `minutes` minutes.
Subscripts out of range raise IndexError. -/
def prepend_padding_value (timeserie : List Record) (minutes : ℤ) :
    Except PyErr (List Record) :=
  match timeserie[0]? with
  | none => .error .indexError
  | some e0 =>
    match timeserie[1]? with
    | none => .error .indexError
    | some e1 =>
      let padding_entry := dictMerge e0 [("value", Value.vdict e1)]
      match exceptMap (shiftEntry minutes) timeserie with
      | .error e => .error e
      | .ok shifted => .ok (padding_entry :: shifted)

/-- One element of the `_electrify` comprehension:
`{'tsISO8601': entry['tsISO8601'], 'pC_1': entry['value'],
'aP_1': entry['value'] * 6}`. A missing key raises KeyError; `entry['value']`
must be a number for the multiplication by 6 (None, a datetime or a dict
raises TypeError there). -/
def electrifyEntry (entry : Record) : Except PyErr Record :=
  match dictGet "tsISO8601" entry with
  | none => .error .keyError
  | some ts =>
    match dictGet "value" entry with
    | none => .error .keyError
    | some (Value.num q) =>
      .ok [("tsISO8601", ts), ("pC_1", Value.num q), ("aP_1", Value.num (q * 6))]
    | some _ => .error .typeError

/-- The static method `_electrify`: the comprehension over the timeserie. -/
def electrify (timeserie : List Record) : Except PyErr (List Record) :=
  exceptMap electrifyEntry timeserie

/-- One iteration of the packaging loop of `_build_unified_packets`:
`{**entry, **{'id': reference, 'tsISO8601': entry['tsISO8601'].strftime(...)}}`.
A missing key raises KeyError; calling `strftime` on a non-datetime raises
(AttributeError, folded into `typeError` here). -/
def packageEntry (reference : String) (entry : Record) : Except PyErr Record :=
  match dictGet "tsISO8601" entry with
  | none => .error .keyError
  | some (Value.time t) =>
    .ok (dictMerge entry
      [("id", Value.str reference), ("tsISO8601", Value.str (strftime_unified t))])
  | some _ => .error .typeError

/-- The static method `_build_unified_packets`: the packaging loop. -/
def build_unified_packets_static (timeserie : List Record) (reference : String) :
    Except PyErr (List Record) :=
  exceptMap (packageEntry reference) timeserie

/-- The state of a `TimeserieProcessor` instance: the wrapped timeserie and
the two construction options. -/
structure TimeserieProcessor where
  timeserie : List Record
  fake_electric : Bool
  minutes_shift : Option ℤ

/-- The method `build_unified_packets`: padding shift when `minutes_shift`
is set, then electrification when `fake_electric` is set, then packaging. -/
def TimeserieProcessor.build_unified_packets (p : TimeserieProcessor)
    (reference : String) : Except PyErr (List Record) :=
  match (match p.minutes_shift with
         | some m => prepend_padding_value p.timeserie m
         | none => Except.ok p.timeserie) with
  | .error e => .error e
  | .ok ts1 =>
    match (if p.fake_electric then electrify ts1 else Except.ok ts1) with
    | .error e => .error e
    | .ok ts2 => build_unified_packets_static ts2 reference

/-- An http response as the uploader sees it: the integer status code and
the body text. -/
structure Response where
  status_code : ℕ
  text : String

/-- Log severities used by the uploader loop. -/
inductive LogLevel where
  | debug
  | info
  | warning
  | error
  | critical
  deriving DecidableEq, Repr

/-- The expression `response.status_code / 100` from `send`. In Python 3
`/` on integers is true division; for an integer status code the float test
`status_code / 100 == 2` holds exactly when the rational quotient equals 2
(no other integer rounds to exactly 2.0 or 3.0), so the quotient is modelled
as a rational. -/
def status_code_class (status : ℕ) : ℚ :=
  (status : ℚ) / 100

/-- The response branch of the `send` loop: the log level chosen for a
received response, per the comparisons of `status_code_class` with 2 and 3. -/
def classifyStatus (status : ℕ) : LogLevel :=
  if status_code_class status = 2 then .debug
  else if status_code_class status = 3 then .warning
  else .error

/-- One observable step of the `send` loop for one packet: either a post
whose response was received and logged at the classified level, or a post
whose transport failed (RequestException), caught and logged critical. Both
record the position of the packet and the serialized payload posted. -/
inductive SendEvent where
  | posted (idx : ℕ) (payload : String) (level : LogLevel) (status : ℕ)
  | transportFailed (idx : ℕ) (payload : String)

/-- Position of the packet a send event belongs to. -/
def SendEvent.eventIdx : SendEvent → ℕ
  | .posted i _ _ _ => i
  | .transportFailed i _ => i

/-- Serialized payload posted by a send event. -/
def SendEvent.eventPayload : SendEvent → String
  | .posted _ s _ _ => s
  | .transportFailed _ s => s

/-- The body of the `send` loop from packet position `i` on. `dumps` models
`json.dumps` (it sits outside the try block, so its exceptions escape the
loop); `net` models `session.post` at a given position and payload, `none`
being a raised RequestException, which the except clause catches before the
loop continues. Returns the trace of events and the escaped exception, if
any. -/
def sendLoop (dumps : Record → Except PyErr String)
    (net : ℕ → String → Option Response) :
    ℕ → List Record → List SendEvent × Option PyErr
  | _, [] => ([], none)
  | i, p :: rest =>
    match dumps p with
    | .error e => ([], some e)
    | .ok payload =>
      match sendLoop dumps net (i + 1) rest with
      | (evs, err) =>
        ((match net i payload with
          | some r => SendEvent.posted i payload (classifyStatus r.status_code) r.status_code
          | none => SendEvent.transportFailed i payload) :: evs, err)

/-- The function `send`: serialize and post every unified json packet in
order, starting at position 0. -/
def send (dumps : Record → Except PyErr String)
    (net : ℕ → String → Option Response) (unified_jsons : List Record) :
    List SendEvent × Option PyErr :=
  sendLoop dumps net 0 unified_jsons

/-!
Store-passing embedding, used for the frame property of
`build_unified_packets`. Python records live on a heap and the timeserie is
a list of addresses. Every dict display or merge allocates a fresh cell at
the end of the heap, subscripting the timeserie or a dict reads, and no
operation of the source writes an existing cell (the source contains no item
assignment and no `update` call), so the embedding has no write operation.
A field value can be a reference to another record: the padding entry stores
a reference to the whole second record under the key `value`, exactly as the
source aliases `timeserie[1]`.
-/

/-- Field values of the store-passing model: base values or an address of
another record. -/
inductive HValue where
  | num (q : ℚ)
  | null
  | str (s : String)
  | time (t : ℤ)
  | ref (a : ℕ)
  deriving DecidableEq, Repr

/-- A record on the heap. -/
abbrev HRecord := List (String × HValue)

/-- The heap: record cells addressed by position. -/
abbrev Heap := List HRecord

/-- The shifting loop of `_prepend_padding_value` in the store-passing
model: read each entry and allocate the shifted copy; allocation appends the
fresh cell at the end of the heap, its address being the old heap length. -/
def shiftLoopH (minutes : ℤ) : Heap → List ℕ → Heap × Except PyErr (List ℕ)
  | h, [] => (h, .ok [])
  | h, a :: rest =>
    match h[a]? with
    | none => (h, .error .invalidRef)
    | some entry =>
      match dictGet "tsISO8601" entry with
      | none => (h, .error .keyError)
      | some (HValue.time t) =>
        match shiftLoopH minutes
            (h ++ [dictMerge entry [("tsISO8601", HValue.time (t + 60 * minutes))]]) rest with
        | (h2, .ok addrs) => (h2, .ok (h.length :: addrs))
        | (h2, .error e) => (h2, .error e)
      | some _ => (h, .error .typeError)

/-- The static method `_prepend_padding_value` in the store-passing model:
the padding entry copies the fields of the first record and stores a
reference to the second record under `value`, then the shifting loop runs
over the original addresses. -/
def prepend_padding_valueH (h : Heap) (timeserie : List ℕ) (minutes : ℤ) :
    Heap × Except PyErr (List ℕ) :=
  match timeserie[0]? with
  | none => (h, .error .indexError)
  | some a0 =>
    match timeserie[1]? with
    | none => (h, .error .indexError)
    | some a1 =>
      match h[a0]? with
      | none => (h, .error .invalidRef)
      | some r0 =>
        match shiftLoopH minutes (h ++ [dictMerge r0 [("value", HValue.ref a1)]]) timeserie with
        | (h2, .ok addrs) => (h2, .ok (h.length :: addrs))
        | (h2, .error e) => (h2, .error e)

/-- The `_electrify` comprehension in the store-passing model: read each
entry, allocate the fresh three-field record. -/
def electrifyLoopH : Heap → List ℕ → Heap × Except PyErr (List ℕ)
  | h, [] => (h, .ok [])
  | h, a :: rest =>
    match h[a]? with
    | none => (h, .error .invalidRef)
    | some entry =>
      match dictGet "tsISO8601" entry with
      | none => (h, .error .keyError)
      | some ts =>
        match dictGet "value" entry with
        | none => (h, .error .keyError)
        | some (HValue.num q) =>
          match electrifyLoopH
              (h ++ [[("tsISO8601", ts), ("pC_1", HValue.num q), ("aP_1", HValue.num (q * 6))]])
              rest with
          | (h2, .ok addrs) => (h2, .ok (h.length :: addrs))
          | (h2, .error e) => (h2, .error e)
        | some _ => (h, .error .typeError)

/-- The `_build_unified_packets` loop in the store-passing model: read each
entry, allocate the merged packet. -/
def packagingLoopH (reference : String) : Heap → List ℕ → Heap × Except PyErr (List ℕ)
  | h, [] => (h, .ok [])
  | h, a :: rest =>
    match h[a]? with
    | none => (h, .error .invalidRef)
    | some entry =>
      match dictGet "tsISO8601" entry with
      | none => (h, .error .keyError)
      | some (HValue.time t) =>
        match packagingLoopH reference
            (h ++ [dictMerge entry
              [("id", HValue.str reference), ("tsISO8601", HValue.str (strftime_unified t))]])
            rest with
        | (h2, .ok addrs) => (h2, .ok (h.length :: addrs))
        | (h2, .error e) => (h2, .error e)
      | some _ => (h, .error .typeError)

/-- The method `build_unified_packets` in the store-passing model: the three
stages threaded through the heap, stopping at the first raised exception
(the heap reached so far is returned either way). -/
def build_unified_packetsH (fake_electric : Bool) (minutes_shift : Option ℤ)
    (h : Heap) (timeserie : List ℕ) (reference : String) :
    Heap × Except PyErr (List ℕ) :=
  match (match minutes_shift with
         | some m => prepend_padding_valueH h timeserie m
         | none => (h, .ok timeserie)) with
  | (h1, .error e) => (h1, .error e)
  | (h1, .ok ts1) =>
    match (if fake_electric then electrifyLoopH h1 ts1 else (h1, .ok ts1)) with
    | (h2, .error e) => (h2, .error e)
    | (h2, .ok ts2) => packagingLoopH reference h2 ts2

/-- Heap `h2` extends heap `h1`: every cell of `h1` is unchanged in `h2`
and cells were only added at the end. -/
def heapExtends (h1 h2 : Heap) : Prop :=
  h1.length ≤ h2.length ∧ ∀ a, a < h1.length → h2[a]? = h1[a]?

/-- Test instance of the `strptime` parameter used by the concrete checks;
it agrees with the stdlib parser on these strings (times are UTC seconds of
the civil reading) and on strings matching none of them, where the stdlib
raises ValueError. -/
def strptimeT (s : String) : Option ℤ :=
  if s = "2020-01-01 10:00:00" then some 1577872800
  else if s = "2020-01-01 10:15:00" then some 1577873700
  else none

/-- Test instance of the `float` builtin parameter used by the concrete
checks; it agrees with the stdlib on these strings, and on strings matching
none of them, where `float` raises ValueError. -/
def pyFloatT (s : String) : Option ℚ :=
  if s = "5" then some 5
  else if s = "7" then some 7
  else none

/-! Helper lemmas about the embedding combinators. -/

theorem exceptMap_ok_length {α β : Type} {f : α → Except PyErr β} {l : List α}
    {out : List β} (h : exceptMap f l = .ok out) : out.length = l.length := by
  induction l generalizing out with
  | nil =>
    simp only [exceptMap, Except.ok.injEq] at h
    simp [← h]
  | cons x xs ih =>
    simp only [exceptMap] at h
    cases hf : f x with
    | error e => simp [hf] at h
    | ok y =>
      simp only [hf] at h
      cases hm : exceptMap f xs with
      | error e => simp [hm] at h
      | ok ys =>
        simp only [hm, Except.ok.injEq] at h
        subst h
        simp [ih hm]

theorem exceptMap_ok_getElem {α β : Type} {f : α → Except PyErr β} {l : List α}
    {out : List β} (h : exceptMap f l = .ok out) :
    ∀ (i : ℕ) (x : α), l[i]? = some x → ∃ y, out[i]? = some y ∧ f x = .ok y := by
  induction l generalizing out with
  | nil => intro i x hx; simp at hx
  | cons z xs ih =>
    simp only [exceptMap] at h
    cases hf : f z with
    | error e => simp [hf] at h
    | ok y =>
      simp only [hf] at h
      cases hm : exceptMap f xs with
      | error e => simp [hm] at h
      | ok ys =>
        simp only [hm, Except.ok.injEq] at h
        subst h
        intro i x hx
        cases i with
        | zero =>
          simp only [List.getElem?_cons_zero, Option.some.injEq] at hx
          subst hx
          exact ⟨y, by simp, hf⟩
        | succ n =>
          simp only [List.getElem?_cons_succ] at hx ⊢
          exact ih hm n x hx

theorem exceptMap_ok_of_forall {α β : Type} {f : α → Except PyErr β} {l : List α}
    (h : ∀ x ∈ l, ∃ y, f x = .ok y) : ∃ out, exceptMap f l = .ok out := by
  induction l with
  | nil => exact ⟨[], rfl⟩
  | cons z xs ih =>
    obtain ⟨y, hy⟩ := h z (by simp)
    obtain ⟨out, hout⟩ := ih (fun x hx => h x (by simp [hx]))
    exact ⟨y :: out, by simp [exceptMap, hy, hout]⟩

theorem exceptMap_ok_forall_mem {α β : Type} {f : α → Except PyErr β} {l : List α}
    {out : List β} (h : exceptMap f l = .ok out) :
    ∀ x ∈ l, ∃ y, f x = .ok y := by
  induction l generalizing out with
  | nil => simp
  | cons z xs ih =>
    simp only [exceptMap] at h
    cases hf : f z with
    | error e => simp [hf] at h
    | ok y =>
      simp only [hf] at h
      cases hm : exceptMap f xs with
      | error e => simp [hm] at h
      | ok ys =>
        intro x hx
        rcases List.mem_cons.mp hx with rfl | hx
        · exact ⟨y, hf⟩
        · exact ih hm x hx

theorem dictGet_append {α : Type} (k : String) (xs ys : List (String × α)) :
    dictGet k (xs ++ ys) = (dictGet k xs).or (dictGet k ys) := by
  induction xs with
  | nil => simp [dictGet]
  | cons hd tl ih =>
    obtain ⟨k0, v⟩ := hd
    by_cases hk : k0 = k
    · simp [dictGet, hk]
    · simp [dictGet, hk, ih]

theorem dictGet_map_override {α : Type} (k : String) (a b : List (String × α)) :
    dictGet k (a.map fun kv => (kv.1, (dictGet kv.1 b).getD kv.2)) =
      (dictGet k a).map fun v => (dictGet k b).getD v := by
  induction a with
  | nil => simp [dictGet]
  | cons hd tl ih =>
    obtain ⟨k0, v⟩ := hd
    by_cases hk : k0 = k
    · subst hk
      simp [dictGet, List.map_cons]
    · simp [dictGet, hk, ih, List.map_cons]

theorem dictGet_filter_isNone {α : Type} (k : String) (a b : List (String × α)) :
    dictGet k (b.filter fun kv => (dictGet kv.1 a).isNone) =
      if (dictGet k a).isNone then dictGet k b else none := by
  induction b with
  | nil => simp [dictGet]
  | cons hd tl ih =>
    obtain ⟨k0, v⟩ := hd
    by_cases hk : k0 = k
    · subst hk
      cases hp : (dictGet k0 a).isNone with
      | true => simp [List.filter_cons, hp, dictGet]
      | false => simp [List.filter_cons, hp, dictGet, ih]
    · cases hp : (dictGet k0 a).isNone with
      | true => simp [List.filter_cons, hp, dictGet, hk, ih]
      | false => simp [List.filter_cons, hp, dictGet, hk, ih]

theorem dictGet_dictMerge {α : Type} (k : String) (a b : List (String × α)) :
    dictGet k (dictMerge a b) = (dictGet k b).or (dictGet k a) := by
  unfold dictMerge
  rw [dictGet_append, dictGet_map_override, dictGet_filter_isNone]
  cases ha : dictGet k a with
  | none => simp
  | some v =>
    cases hb : dictGet k b with
    | none => simp
    | some w => simp

theorem map_fst_zip_take {α β : Type} (l1 : List α) (l2 : List β) :
    (List.zip l1 l2).map Prod.fst = l1.take l2.length := by
  induction l1 generalizing l2 with
  | nil => simp
  | cons x xs ih =>
    cases l2 with
    | nil => simp
    | cons y ys => simp [List.zip_cons_cons, ih]


theorem heapExtends_refl (h : Heap) : heapExtends h h :=
  ⟨le_refl _, fun _ _ => rfl⟩

theorem heapExtends_trans {h1 h2 h3 : Heap} (a : heapExtends h1 h2)
    (b : heapExtends h2 h3) : heapExtends h1 h3 :=
  ⟨le_trans a.1 b.1, fun i hi => (b.2 i (lt_of_lt_of_le hi a.1)).trans (a.2 i hi)⟩

theorem heapExtends_append_single (h : Heap) (r : HRecord) :
    heapExtends h (h ++ [r]) := by
  refine ⟨by simp, fun a ha => ?_⟩
  rw [List.getElem?_append]
  simp [ha]

theorem shiftLoopH_extends (minutes : ℤ) :
    ∀ (l : List ℕ) (h : Heap), heapExtends h (shiftLoopH minutes h l).1 := by
  intro l
  induction l with
  | nil => intro h; exact heapExtends_refl h
  | cons a rest ih =>
    intro h
    unfold shiftLoopH
    split
    · exact heapExtends_refl h
    · split
      · exact heapExtends_refl h
      · split
        · next h2 addrs heq =>
            exact heapExtends_trans (heapExtends_append_single h _) (heq ▸ ih _)
        · next h2 e heq =>
            exact heapExtends_trans (heapExtends_append_single h _) (heq ▸ ih _)
      · exact heapExtends_refl h

theorem electrifyLoopH_extends :
    ∀ (l : List ℕ) (h : Heap), heapExtends h (electrifyLoopH h l).1 := by
  intro l
  induction l with
  | nil => intro h; exact heapExtends_refl h
  | cons a rest ih =>
    intro h
    unfold electrifyLoopH
    split
    · exact heapExtends_refl h
    · split
      · exact heapExtends_refl h
      · split
        · exact heapExtends_refl h
        · split
          · next h2 addrs heq =>
              exact heapExtends_trans (heapExtends_append_single h _) (heq ▸ ih _)
          · next h2 e heq =>
              exact heapExtends_trans (heapExtends_append_single h _) (heq ▸ ih _)
        · exact heapExtends_refl h

theorem packagingLoopH_extends (reference : String) :
    ∀ (l : List ℕ) (h : Heap), heapExtends h (packagingLoopH reference h l).1 := by
  intro l
  induction l with
  | nil => intro h; exact heapExtends_refl h
  | cons a rest ih =>
    intro h
    unfold packagingLoopH
    split
    · exact heapExtends_refl h
    · split
      · exact heapExtends_refl h
      · split
        · next h2 addrs heq =>
            exact heapExtends_trans (heapExtends_append_single h _) (heq ▸ ih _)
        · next h2 e heq =>
            exact heapExtends_trans (heapExtends_append_single h _) (heq ▸ ih _)
      · exact heapExtends_refl h

theorem prepend_padding_valueH_extends (h : Heap) (timeserie : List ℕ) (minutes : ℤ) :
    heapExtends h (prepend_padding_valueH h timeserie minutes).1 := by
  unfold prepend_padding_valueH
  split
  · exact heapExtends_refl h
  · split
    · exact heapExtends_refl h
    · split
      · exact heapExtends_refl h
      · split
        · next h2 addrs heq =>
            exact heapExtends_trans (heapExtends_append_single h _)
              (heq ▸ shiftLoopH_extends minutes timeserie _)
        · next h2 e heq =>
            exact heapExtends_trans (heapExtends_append_single h _)
              (heq ▸ shiftLoopH_extends minutes timeserie _)

/-- C9: the method `build_unified_packets` never mutates its input: in the
store-passing embedding, for every starting heap, input address sequence and
configuration (any combination of `fake_electric` and `minutes_shift`), the
heap returned by the call leaves every pre-existing record cell — in
particular every record of the wrapped input sequence — unchanged, because
each transform step only allocates fresh records and fresh sequences. -/
theorem c9_build_unified_packets_no_mutation (fake_electric : Bool)
    (minutes_shift : Option ℤ) (h : Heap) (timeserie : List ℕ) (reference : String) :
    heapExtends h
      (build_unified_packetsH fake_electric minutes_shift h timeserie reference).1 := by
  unfold build_unified_packetsH
  have hs1 : heapExtends h (match minutes_shift with
      | some m => prepend_padding_valueH h timeserie m
      | none => (h, Except.ok timeserie)).1 := by
    cases minutes_shift with
    | none => exact heapExtends_refl h
    | some m => exact prepend_padding_valueH_extends h timeserie m
  split
  · next h1 e heq =>
      rw [heq] at hs1
      exact hs1
  · next h1 ts1 heq =>
      rw [heq] at hs1
      have hs2 : heapExtends h1
          (if fake_electric then electrifyLoopH h1 ts1 else (h1, Except.ok ts1)).1 := by
        cases fake_electric with
        | true => simpa using electrifyLoopH_extends ts1 h1
        | false => exact heapExtends_refl h1
      split
      · next h2 e2 heq2 =>
          rw [heq2] at hs2
          exact heapExtends_trans hs1 hs2
      · next h2 ts2 heq2 =>
          rw [heq2] at hs2
          exact heapExtends_trans hs1
            (heapExtends_trans hs2 (packagingLoopH_extends reference ts2 h2))

/-- C9 witness: on a concrete two-record heap with both options enabled, the
first input record cell is unchanged after the call. -/
theorem c9_build_unified_packets_no_mutation_witness :
    ((build_unified_packetsH true (some 15)
        [[("tsISO8601", HValue.time 1577872800), ("value", HValue.num 7)],
         [("tsISO8601", HValue.time 1577873700), ("value", HValue.num 9)]]
        [0, 1] "abc123").1)[0]? =
      some [("tsISO8601", HValue.time 1577872800), ("value", HValue.num 7)] :=
  ((c9_build_unified_packets_no_mutation true (some 15)
      [[("tsISO8601", HValue.time 1577872800), ("value", HValue.num 7)],
       [("tsISO8601", HValue.time 1577873700), ("value", HValue.num 9)]]
      [0, 1] "abc123").2 0 (by decide)).trans (by rfl)

/-- C1: evaluation of the padding step at a two-record input with a 15
minute shift (timestamps 2020-01-01 10:00:00 and 10:15:00, values 7 and 9).
The synthetic first record keeps the first record pre-shift timestamp and
the following records are the input records shifted by exactly 15 minutes,
as the claim states, but the `value` field of the synthetic record is the
whole second record (the source writes `{'value': timeserie[1]}`), not the
second record `value` field 9, refuting that part of the claim. -/
theorem c1_padding_stores_whole_second_record :
    prepend_padding_value
      [[("tsISO8601", Value.time 1577872800), ("value", Value.num 7)],
       [("tsISO8601", Value.time 1577873700), ("value", Value.num 9)]] 15 =
    Except.ok
      [[("tsISO8601", Value.time 1577872800),
        ("value", Value.vdict [("tsISO8601", Value.time 1577873700), ("value", Value.num 9)])],
       [("tsISO8601", Value.time 1577873700), ("value", Value.num 7)],
       [("tsISO8601", Value.time 1577874600), ("value", Value.num 9)]] ∧
    Value.vdict [("tsISO8601", Value.time 1577873700), ("value", Value.num 9)] ≠
      Value.num 9 :=
  ⟨rfl, nofun⟩

/-- C2: evaluation of the response branch of `send` at concrete status
codes. Because `status_code / 100` is true division in Python 3, a class-2
status such as 204 does not satisfy `status_code / 100 == 2` and falls to
the error branch instead of the debug branch the claim requires (the same
happens to 301 against the warning branch); only exactly 200 and 300 reach
the debug and warning branches. -/
theorem c2_true_division_misclassifies :
    classifyStatus 204 = LogLevel.error ∧ classifyStatus 200 = LogLevel.debug ∧
      classifyStatus 301 = LogLevel.error ∧ classifyStatus 300 = LogLevel.warning ∧
      classifyStatus 404 = LogLevel.error ∧ classifyStatus 503 = LogLevel.error := by
  norm_num [classifyStatus, status_code_class]

/-- C8: when `minutes_shift` is set and the wrapped timeserie has fewer
than 2 records, `build_unified_packets` raises the IndexError of
`timeserie[0]` or `timeserie[1]` (the insufficient-data failure) and
produces no packets. -/
theorem c8_shift_needs_two_records (p : TimeserieProcessor) (reference : String)
    (m : ℤ) (hm : p.minutes_shift = some m) (hlen : p.timeserie.length < 2) :
    p.build_unified_packets reference = .error PyErr.indexError := by
  unfold TimeserieProcessor.build_unified_packets
  have hpre : prepend_padding_value p.timeserie m = .error PyErr.indexError := by
    unfold prepend_padding_value
    cases hts : p.timeserie with
    | nil => rfl
    | cons e0 rest =>
      cases rest with
      | nil => rfl
      | cons e1 rest2 =>
        rw [hts] at hlen
        simp only [List.length_cons] at hlen
        omega
  simp only [hm, hpre]

/-- C8 witness: a processor wrapping a single record with a 15 minute shift
raises IndexError. -/
theorem c8_shift_needs_two_records_witness :
    TimeserieProcessor.build_unified_packets
      ⟨[[("tsISO8601", Value.time 1577872800), ("value", Value.num 7)]], true, some 15⟩
      "abc123" = .error PyErr.indexError :=
  c8_shift_needs_two_records
    ⟨[[("tsISO8601", Value.time 1577872800), ("value", Value.num 7)]], true, some 15⟩
    "abc123" 15 rfl (by decide)

/-- C4: when every record carries its timestamp and a float value (the
precondition under which the step is defined, see C10), `_electrify` maps
the sequence, preserving order and length, to records whose fields are
exactly tsISO8601 (the timestamp preserved), pC_1 (the record value) and
aP_1 (that value times 6, so aP_1 equals 6 times pC_1), with no other
original field surviving. -/
theorem c4_electrify_shape (timeserie : List Record)
    (h : ∀ entry ∈ timeserie, (∃ v, dictGet "tsISO8601" entry = some v) ∧
         ∃ q, dictGet "value" entry = some (Value.num q)) :
    ∃ out, electrify timeserie = .ok out ∧ out.length = timeserie.length ∧
      ∀ (i : ℕ) (entry : Record), timeserie[i]? = some entry →
        ∃ ts q, dictGet "tsISO8601" entry = some ts ∧
          dictGet "value" entry = some (Value.num q) ∧
          out[i]? = some [("tsISO8601", ts), ("pC_1", Value.num q),
                          ("aP_1", Value.num (q * 6))] := by
  have hex : ∀ entry ∈ timeserie, ∃ y, electrifyEntry entry = .ok y := by
    intro entry he
    obtain ⟨⟨v, hv⟩, ⟨q, hq⟩⟩ := h entry he
    exact ⟨_, by unfold electrifyEntry; rw [hv, hq]⟩
  obtain ⟨out, hout⟩ := exceptMap_ok_of_forall hex
  refine ⟨out, hout, exceptMap_ok_length hout, ?_⟩
  intro i entry hi
  obtain ⟨y, hy, hfy⟩ := exceptMap_ok_getElem hout i entry hi
  have hmem : entry ∈ timeserie := List.getElem?_mem hi
  obtain ⟨⟨v, hv⟩, ⟨q, hq⟩⟩ := h entry hmem
  refine ⟨v, q, hv, hq, ?_⟩
  have hval : electrifyEntry entry =
      .ok [("tsISO8601", v), ("pC_1", Value.num q), ("aP_1", Value.num (q * 6))] := by
    unfold electrifyEntry
    rw [hv, hq]
  rw [hval] at hfy
  injection hfy with hfy
  rw [← hfy] at hy
  exact hy

/-- C4 witness: electrification of one record with value 7. -/
theorem c4_electrify_shape_witness :
    ∃ out, electrify [[("tsISO8601", Value.time 1577872800), ("value", Value.num 7)]] =
        .ok out ∧
      out.length = [[("tsISO8601", Value.time 1577872800), ("value", Value.num 7)]].length ∧
      ∀ (i : ℕ) (entry : Record),
        [[("tsISO8601", Value.time 1577872800), ("value", Value.num 7)]][i]? = some entry →
        ∃ ts q, dictGet "tsISO8601" entry = some ts ∧
          dictGet "value" entry = some (Value.num q) ∧
          out[i]? = some [("tsISO8601", ts), ("pC_1", Value.num q),
                          ("aP_1", Value.num (q * 6))] :=
  c4_electrify_shape [[("tsISO8601", Value.time 1577872800), ("value", Value.num 7)]]
    (by
      intro entry he
      simp only [List.mem_singleton] at he
      subst he
      exact ⟨⟨Value.time 1577872800, rfl⟩, ⟨7, rfl⟩⟩)

/-- C10: `_electrify` is total on sequences whose records all carry a
timestamp and a non-null float value, and on a sequence containing a record
whose `value` is None (as produced by best-effort parsing of an unparseable
column) it raises (the TypeError of `None * 6`) instead of emitting packets
with null electrical fields. -/
theorem c10_electrify_value_precondition (timeserie : List Record) :
    ((∀ entry ∈ timeserie, (∃ v, dictGet "tsISO8601" entry = some v) ∧
        ∃ q, dictGet "value" entry = some (Value.num q)) →
      ∃ out, electrify timeserie = .ok out) ∧
    ((∃ entry ∈ timeserie, dictGet "value" entry = some Value.null) →
      ∀ out, electrify timeserie ≠ .ok out) := by
  constructor
  · intro h
    apply exceptMap_ok_of_forall
    intro entry he
    obtain ⟨⟨v, hv⟩, ⟨q, hq⟩⟩ := h entry he
    exact ⟨_, by unfold electrifyEntry; rw [hv, hq]⟩
  · rintro ⟨entry, hmem, hnull⟩ out hok
    unfold electrify at hok
    obtain ⟨y, hy⟩ := exceptMap_ok_forall_mem hok entry hmem
    unfold electrifyEntry at hy
    cases hts : dictGet "tsISO8601" entry with
    | none => rw [hts] at hy; simp at hy
    | some v => rw [hts, hnull] at hy; simp at hy

/-- C10 witness: a float-valued record electrifies, a None-valued record
raises. -/
theorem c10_electrify_value_precondition_witness :
    (∃ out, electrify [[("tsISO8601", Value.time 1577872800), ("value", Value.num 7)]] =
        .ok out) ∧
    electrify [[("tsISO8601", Value.time 1577872800), ("value", Value.null)]] ≠
      .ok [] := by
  constructor
  · exact (c10_electrify_value_precondition _).1 (by
      intro entry he
      simp only [List.mem_singleton] at he
      subst he
      exact ⟨⟨Value.time 1577872800, rfl⟩, ⟨7, rfl⟩⟩)
  · exact (c10_electrify_value_precondition _).2
      ⟨[("tsISO8601", Value.time 1577872800), ("value", Value.null)], by simp, rfl⟩ []

/-- The trace of the send loop from any start position, for serializable
packets: no exception escapes, and the trace has one post attempt per
packet, in order, with the serialized payload. -/
theorem sendLoop_trace (dumps : Record → Except PyErr String)
    (net : ℕ → String → Option Response) :
    ∀ (packets : List Record) (k : ℕ),
      (∀ p ∈ packets, ∃ s, dumps p = .ok s) →
      (sendLoop dumps net k packets).2 = none ∧
      (sendLoop dumps net k packets).1.length = packets.length ∧
      ∀ (i : ℕ) (p : Record), packets[i]? = some p →
        ∃ ev s, (sendLoop dumps net k packets).1[i]? = some ev ∧
          dumps p = .ok s ∧ ev.eventIdx = k + i ∧ ev.eventPayload = s := by
  intro packets
  induction packets with
  | nil =>
    intro k h
    exact ⟨rfl, rfl, by intro i p hp; simp at hp⟩
  | cons p rest ih =>
    intro k h
    obtain ⟨s, hs⟩ := h p (by simp)
    have ihk := ih (k + 1) (fun q hq => h q (by simp [hq]))
    cases hrest : sendLoop dumps net (k + 1) rest with
    | mk evs err =>
      rw [hrest] at ihk
      have hred : sendLoop dumps net k (p :: rest) =
          ((match net k s with
            | some r => SendEvent.posted k s (classifyStatus r.status_code) r.status_code
            | none => SendEvent.transportFailed k s) :: evs, err) := by
        unfold sendLoop
        rw [hs, hrest]
      rw [hred]
      refine ⟨ihk.1, by simpa using ihk.2.1, ?_⟩
      intro i q hq
      cases i with
      | zero =>
        simp only [List.getElem?_cons_zero, Option.some.injEq] at hq
        subst hq
        refine ⟨(match net k s with
          | some r => SendEvent.posted k s (classifyStatus r.status_code) r.status_code
          | none => SendEvent.transportFailed k s), s, by simp, hs, ?_, ?_⟩
        · cases net k s <;> simp [SendEvent.eventIdx]
        · cases net k s <;> simp [SendEvent.eventPayload]
      | succ n =>
        simp only [List.getElem?_cons_succ] at hq ⊢
        obtain ⟨ev, s2, hev, hs2, hidx, hpay⟩ := ihk.2.2 n q hq
        refine ⟨ev, s2, hev, hs2, ?_, hpay⟩
        rw [hidx]
        omega

/-- C5: for every packet sequence whose packets serialize, and every
network behaviour (any pattern of per-packet transport failures), `send`
lets no exception escape and its trace has exactly one post attempt per
packet, in sequence order, each carrying that packet serialized payload —
so a transport failure on one packet never stops later packets from being
serialized and posted. -/
theorem c5_send_continues_past_failures (dumps : Record → Except PyErr String)
    (net : ℕ → String → Option Response) (packets : List Record)
    (h : ∀ p ∈ packets, ∃ s, dumps p = .ok s) :
    (send dumps net packets).2 = none ∧
    (send dumps net packets).1.length = packets.length ∧
    ∀ (i : ℕ) (p : Record), packets[i]? = some p →
      ∃ ev s, (send dumps net packets).1[i]? = some ev ∧
        dumps p = .ok s ∧ ev.eventIdx = i ∧ ev.eventPayload = s := by
  have hmain := sendLoop_trace dumps net packets 0 h
  simpa [send] using hmain

/-- C5 witness: two packets with a transport failure on the first; the
second is still posted. -/
theorem c5_send_continues_past_failures_witness :
    (send (fun _ => .ok "x") (fun i _ => if i = 0 then none else some ⟨503, "err"⟩)
        [[("id", Value.str "a")], [("id", Value.str "b")]]).2 = none ∧
    (send (fun _ => .ok "x") (fun i _ => if i = 0 then none else some ⟨503, "err"⟩)
        [[("id", Value.str "a")], [("id", Value.str "b")]]).1.length =
      [[("id", Value.str "a")], [("id", Value.str "b")]].length ∧
    ∀ (i : ℕ) (p : Record),
      [[("id", Value.str "a")], [("id", Value.str "b")]][i]? = some p →
      ∃ ev s, (send (fun _ => .ok "x") (fun i _ => if i = 0 then none else some ⟨503, "err"⟩)
          [[("id", Value.str "a")], [("id", Value.str "b")]]).1[i]? = some ev ∧
        (fun (_ : Record) => Except.ok (ε := PyErr) "x") p = .ok s ∧
        ev.eventIdx = i ∧ ev.eventPayload = s :=
  c5_send_continues_past_failures (fun _ => .ok "x") (fun i _ => if i = 0 then none else some ⟨503, "err"⟩)
    [[("id", Value.str "a")], [("id", Value.str "b")]]
    (fun _ _ => ⟨"x", rfl⟩)

/-- C3 counterexample: a row whose value-column count (here 1) mismatches
the fixed 21-key count is not rejected with an error; `parse_electricity_csv`
accepts it and produces a record whose keys are only tsISO8601 and aP_1 —
not the 21 fixed keys plus timestamp the claim requires. -/
theorem c3_mismatched_row_not_rejected :
    parse_electricity_csv strptimeT pyFloatT [["2020-01-01 10:00:00", "5"]] =
      Except.ok [[("tsISO8601", Value.time 1577872800), ("aP_1", Value.num 5)]] ∧
    [("tsISO8601", Value.time 1577872800), ("aP_1", Value.num 5)].map Prod.fst ≠
      "tsISO8601" :: ELECTRICITY_KEYS :=
  ⟨rfl, by decide⟩

/-- C3 amended: every accepted row yields a record whose keys are the first
row-length entries of tsISO8601 followed by the 21 electrical keys, because
`zip` truncates to the shorter list: a row with exactly 21 value columns
yields exactly the 21 fixed keys plus timestamp, while a mismatched nonempty
row is silently truncated or its extra values dropped, never rejected. -/
theorem c3_electrical_record_keys (strptime : String → Option ℤ) (pyFloat : String → Option ℚ)
    (rows : List (List String)) (out : List Record)
    (h : parse_electricity_csv strptime pyFloat rows = .ok out) :
    ∀ (i : ℕ) (row : List String), rows[i]? = some row →
      ∃ rec, out[i]? = some rec ∧
        rec.map Prod.fst = ("tsISO8601" :: ELECTRICITY_KEYS).take row.length := by
  unfold parse_electricity_csv at h
  intro i row hrow
  obtain ⟨rec, hrec, hf⟩ := exceptMap_ok_getElem h i row hrow
  refine ⟨rec, hrec, ?_⟩
  unfold parseElectricityRow at hf
  cases row with
  | nil => simp at hf
  | cons t vs =>
    dsimp only at hf
    cases hs : strptime t with
    | none => rw [hs] at hf; simp at hf
    | some dt =>
      rw [hs] at hf
      simp only [Except.ok.injEq] at hf
      subst hf
      rw [map_fst_zip_take]
      simp

/-- C3 witness: a 22-column row (timestamp plus 21 values) yields a record
carrying exactly the full key list. -/
theorem c3_electrical_record_keys_witness :
    ∃ rec, ([(("tsISO8601" :: ELECTRICITY_KEYS).zip
        (Value.time 1577872800 :: List.replicate 21 (Value.num 5)))] : List Record)[0]? =
          some rec ∧
      rec.map Prod.fst = ("tsISO8601" :: ELECTRICITY_KEYS).take 22 :=
  c3_electrical_record_keys strptimeT pyFloatT [("2020-01-01 10:00:00" :: List.replicate 21 "5")]
    [(("tsISO8601" :: ELECTRICITY_KEYS).zip
      (Value.time 1577872800 :: List.replicate 21 (Value.num 5)))]
    rfl 0 ("2020-01-01 10:00:00" :: List.replicate 21 "5") rfl

/-- C6 counterexample: a file of one row with exactly 2 columns whose
timestamp does not parse makes `parse_single_value_csv` raise instead of
returning a sequence of the row count length. -/
theorem c6_bad_timestamp_raises :
    parse_single_value_csv strptimeT pyFloatT [["x", "5"]] =
      Except.error PyErr.valueErrorTimestamp :=
  rfl

/-- C6 amended: for rows that have exactly 2 columns and a timestamp in the
fixed format, `parse_single_value_csv` returns one record per row in file
order, each record `value` being exactly the parsed float of the second
column, or None when that column is not parseable as a float (value parsing
raises no error). -/
theorem c6_single_value_parse_shape (strptime : String → Option ℤ) (pyFloat : String → Option ℚ)
    (rows : List (List String))
    (h : ∀ row ∈ rows, ∃ t v, row = [t, v] ∧ ∃ dt, strptime t = some dt) :
    ∃ out, parse_single_value_csv strptime pyFloat rows = .ok out ∧
      out.length = rows.length ∧
      ∀ (i : ℕ) (t v : String), rows[i]? = some [t, v] →
        ∃ dt, strptime t = some dt ∧
          out[i]? = some [("tsISO8601", Value.time dt),
                          ("value", optFloatToValue (safe_string_to_float pyFloat v))] := by
  have hex : ∀ row ∈ rows, ∃ y, parseSingleValueRow strptime pyFloat row = .ok y := by
    intro row hr
    obtain ⟨t, v, rfl, dt, hdt⟩ := h row hr
    refine ⟨[("tsISO8601", Value.time dt),
             ("value", optFloatToValue (safe_string_to_float pyFloat v))], ?_⟩
    simp only [parseSingleValueRow, hdt]
  obtain ⟨out, hout⟩ := exceptMap_ok_of_forall hex
  refine ⟨out, hout, exceptMap_ok_length hout, ?_⟩
  intro i t v hi
  obtain ⟨y, hy, hfy⟩ := exceptMap_ok_getElem hout i [t, v] hi
  obtain ⟨t2, v2, heq, dt, hdt⟩ := h [t, v] (List.getElem?_mem hi)
  injection heq with h1 hrest2
  injection hrest2 with h2 hnil2
  subst h1
  subst h2
  refine ⟨dt, hdt, ?_⟩
  have hval : parseSingleValueRow strptime pyFloat [t, v] =
      .ok [("tsISO8601", Value.time dt),
           ("value", optFloatToValue (safe_string_to_float pyFloat v))] := by
    simp only [parseSingleValueRow, hdt]
  rw [hval] at hfy
  injection hfy with hfy
  rw [← hfy] at hy
  exact hy

/-- C6 witness: two rows, the second with an unparseable value, parse to
two records, the second with a None value. -/
theorem c6_single_value_parse_shape_witness :
    ∃ out, parse_single_value_csv strptimeT pyFloatT
        [["2020-01-01 10:00:00", "7"], ["2020-01-01 10:15:00", "x"]] = .ok out ∧
      out.length = 2 ∧
      ∀ (i : ℕ) (t v : String),
        ([["2020-01-01 10:00:00", "7"], ["2020-01-01 10:15:00", "x"]] :
          List (List String))[i]? = some [t, v] →
        ∃ dt, strptimeT t = some dt ∧
          out[i]? = some [("tsISO8601", Value.time dt),
                          ("value", optFloatToValue (safe_string_to_float pyFloatT v))] :=
  c6_single_value_parse_shape strptimeT pyFloatT [["2020-01-01 10:00:00", "7"], ["2020-01-01 10:15:00", "x"]]
    (by
      intro row hr
      simp only [List.mem_cons, List.not_mem_nil, or_false] at hr
      rcases hr with rfl | rfl
      · exact ⟨"2020-01-01 10:00:00", "7", rfl, 1577872800, rfl⟩
      · exact ⟨"2020-01-01 10:15:00", "x", rfl, 1577873700, rfl⟩)

/-- C7: every packet emitted by the packaging step renders the record
timestamp as the directive part year-month-dayThour:minute:second of its
civil reading with the literal suffix `.000+00:00` appended, with no
timezone conversion applied. -/
theorem c7_packet_timestamp_rendering (timeserie : List Record) (reference : String) (out : List Record)
    (h : build_unified_packets_static timeserie reference = .ok out) :
    ∀ (i : ℕ) (entry : Record) (t : ℤ), timeserie[i]? = some entry →
      dictGet "tsISO8601" entry = some (Value.time t) →
      ∃ packet, out[i]? = some packet ∧
        dictGet "tsISO8601" packet =
          some (Value.str (fmtYmdTHMS t ++ ".000+00:00")) := by
  unfold build_unified_packets_static at h
  intro i entry t hi hts
  obtain ⟨y, hy, hfy⟩ := exceptMap_ok_getElem h i entry hi
  have hpack : packageEntry reference entry =
      .ok (dictMerge entry
        [("id", Value.str reference), ("tsISO8601", Value.str (strftime_unified t))]) := by
    unfold packageEntry
    rw [hts]
  rw [hpack] at hfy
  injection hfy with hfy
  subst hfy
  refine ⟨_, hy, ?_⟩
  rw [dictGet_dictMerge]
  rw [show dictGet "tsISO8601"
      [("id", Value.str reference), ("tsISO8601", Value.str (strftime_unified t))] =
      some (Value.str (strftime_unified t)) from rfl]
  simp [strftime_unified]

/-- C7 witness: the record at 2020-01-01 10:00:00 packages to tsISO8601
`2020-01-01T10:00:00.000+00:00`, as in the spec example. -/
theorem c7_packet_timestamp_rendering_witness :
    ∃ packet, ([[("tsISO8601", Value.str "2020-01-01T10:00:00.000+00:00"),
        ("value", Value.num 7), ("id", Value.str "abc123")]] : List Record)[0]? =
          some packet ∧
      dictGet "tsISO8601" packet =
        some (Value.str "2020-01-01T10:00:00.000+00:00") :=
  c7_packet_timestamp_rendering [[("tsISO8601", Value.time 1577872800), ("value", Value.num 7)]] "abc123"
    [[("tsISO8601", Value.str "2020-01-01T10:00:00.000+00:00"),
      ("value", Value.num 7), ("id", Value.str "abc123")]]
    rfl 0 [("tsISO8601", Value.time 1577872800), ("value", Value.num 7)] 1577872800 rfl rfl
